import Mathlib

/-!
Shallow embedding of the meshhq/funnel distributed rate limiter.

Sources embedded:
- the limiter itself (package funnel: `RateLimitInfo`, `RateLimiter`,
  `NewLimiter`, `Enter`, `redlockToken`, `rateLimiterToken`);
- the vendored meshRedis store operations that `Enter` uses
  (`GetListCount` / LLEN, `KeyExists` / EXISTS, `RPushX` / RPUSHX,
  `AtomicPushOnListWithMsExpiration` / MULTI RPUSH PEXPIRE EXEC),
  modelled as transitions of a per-token window state machine.

Go `int`/`int64` values are embedded as `Int` (the claims never exercise
machine-width overflow), Go float64 config factors as `ℚ`, and fallible
store calls as `Except Unit` results supplied by an oracle, one record per
probe iteration.
-/

namespace Funnel

/-! ## Configuration and construction (funnel source, lines 15-115) -/

/-- The four package-level defaults of the funnel source. -/
def defaultMaxRequests : Int := 10

/-- Default max time for the rate limit window, in milliseconds. -/
def defaultTimeInterval : Int := 1000

/-- Default amount of probe-loop retries. -/
def defaultRetries : Int := 1000

/-- Default randomness factor for the retry logic (0.5 in the source). -/
def defaultFactor : ℚ := 1/2

/-- Embedding of `RateLimitInfo`: the caller-facing configuration struct. -/
structure RateLimitInfo where
  Token : String
  MaxRequests : Int
  TimeInterval : Int
deriving DecidableEq

/-- Embedding of the data fields of `RateLimiter`. The Go struct also holds a
pool pointer, a redsync mutex pointer, a local `sync.Mutex` and an unused
`currentCount`; only the configuration data participates in the claims.
Field order: token, maxRequestsForTimeInterval, timeInterval, retries,
delay, factor. The unexported fields `retries`, `delay`, `factor` are left
at their Go zero values by `NewLimiter` except `delay`. -/
structure RateLimiter where
  token : String
  maxRequestsForTimeInterval : Int
  timeInterval : Int
  retries : Int
  delay : Int
  factor : ℚ
deriving DecidableEq

/-- Embedding of `NewLimiter` (lines 98-115). The source checks only that the
Redis pool is non-nil; it performs no validation of the configuration and no
store operation. It appends the fixed suffix to the token and derives
`delay = TimeInterval / 4` (Go integer division truncates toward zero,
hence `Int.tdiv`). `retries` and `factor` keep their zero values. -/
def NewLimiter (limitInfo : RateLimitInfo) (poolPresent : Bool) :
    Option RateLimiter :=
  if poolPresent then
    some ⟨limitInfo.Token ++ "_rateLimiterToken",
          limitInfo.MaxRequests,
          limitInfo.TimeInterval,
          0,
          limitInfo.TimeInterval.tdiv 4,
          0⟩
  else
    none

/-- Embedding of `redlockToken` (lines 218-220): the key of the distributed
lock. -/
def redlockToken (r : RateLimiter) : String :=
  r.token ++ "_redSync"

/-- Embedding of `rateLimiterToken` (lines 223-225): the key of the window
list. Note the suffix is appended a second time on top of the one already
added by `NewLimiter`. -/
def rateLimiterToken (r : RateLimiter) : String :=
  r.token ++ "_rateLimiterToken"

/-- The effective configuration `Enter` computes at lines 120-145.
Field order: timeInterval, retries, delay, factor, maxRequests. -/
structure EffConfig where
  timeInterval : Int
  retries : Int
  delay : Int
  factor : ℚ
  maxRequests : Int
deriving DecidableEq

/-- Embedding of the config-resolution prologue of `Enter` (lines 120-145).
Faithful to the source:
- `timeInterval` falls back to 1000 when zero;
- `retries` falls back to 1000 when zero;
- when `delay` is zero the source executes `delay = delay / 10.0`, i.e. it
  divides the zero delay by ten and keeps zero;
- `factor` falls back to 0.5 when zero;
- the admission bound `r.maxRequestsForTimeInterval` is used as-is in the
  probe loop (line 175); no default is ever applied to it. -/
def resolveConfig (r : RateLimiter) : EffConfig :=
  ⟨(if r.timeInterval = 0 then defaultTimeInterval else r.timeInterval),
   (if r.retries = 0 then defaultRetries else r.retries),
   (if r.delay = 0 then r.delay.tdiv 10 else r.delay),
   (if r.factor = 0 then defaultFactor else r.factor),
   r.maxRequestsForTimeInterval⟩

/-! ## The probe loop of `Enter` (lines 168-211), driven by a store oracle

Each loop iteration performs up to three store calls: `GetListCount`,
`KeyExists`, and either `AtomicPushOnListWithMsExpiration` or `RPushX`.
Their results for iteration `i` are supplied by an oracle record `f i`. -/

/-- Store responses available to one probe iteration. Field order:
countR (GetListCount), existsR (KeyExists), atomicR
(AtomicPushOnListWithMsExpiration), pushxR (RPushX, which returns the new
list length, 0 when the key was absent). An `Except.error` models a non-nil
Go error from the call. -/
structure ProbeObs where
  countR : Except Unit Int
  existsR : Except Unit Bool
  atomicR : Except Unit Unit
  pushxR : Except Unit Int

/-- Outcome of one probe iteration of `Enter`. -/
inductive IterOut
  | sleepRetry
  | contRetry
  | admitted
deriving DecidableEq

/-- Embedding of one iteration of the probe loop (lines 168-207):
- a `GetListCount` error, or a count at or above the limit, sleeps and
  retries (lines 170-178);
- a `KeyExists` error continues the loop (lines 183-187);
- key absent: `AtomicPushOnListWithMsExpiration`; an error continues,
  success returns nil (lines 190-196, 206);
- key present: `RPushX`; an error continues, success returns nil with the
  returned length discarded (lines 197-206). -/
def iter (maxR : Int) (o : ProbeObs) : IterOut :=
  match o.countR with
  | .error _ => .sleepRetry
  | .ok c =>
    if maxR ≤ c then .sleepRetry
    else
      match o.existsR with
      | .error _ => .contRetry
      | .ok false =>
        match o.atomicR with
        | .error _ => .contRetry
        | .ok _ => .admitted
      | .ok true =>
        match o.pushxR with
        | .error _ => .contRetry
        | .ok _ => .admitted

/-- Result of the probe loop: admission, or the max-attempts error of
line 210. -/
inductive LoopResult
  | admitted
  | maxAttempts
deriving DecidableEq

/-- Embedding of `for i := 0; i < retries; i++` (lines 168-210). Returns the
loop result together with the total number of iterations executed; `i` is
the index of the next oracle record. -/
def enterLoop (maxR : Int) (f : Nat → ProbeObs) : Nat → Nat → LoopResult × Nat
  | 0, i => (.maxAttempts, i)
  | n + 1, i =>
    match iter maxR (f i) with
    | .admitted => (.admitted, i + 1)
    | _ => enterLoop maxR f n (i + 1)

/-- The three results `Enter` can return: nil, the max-attempts error of
line 210, or the error surfaced from `redMutex.Lock()` at line 159. -/
inductive EnterResult
  | admitted
  | maxAttemptsError
  | lockError
deriving DecidableEq

/-- Lock/unlock events emitted by one execution of `Enter`, in order. -/
inductive Ev
  | lockLocal
  | lockDist
  | probe
  | unlockDist
  | unlockLocal
  | distFail
deriving DecidableEq

/-- Embedding of the body of `Enter` after config resolution (lines
150-211), with its event trace. The local mutex is taken first (line 150)
and its deferred unlock registered; then the redsync mutex is acquired
(line 156, outcome `lockOk`); a lock failure returns the lock error with
only the local unlock running. Otherwise the probe loop runs and Go's LIFO
defer order releases the distributed mutex (line 161) before the local one
(line 151) on every exit path. -/
def enter (maxR : Int) (lockOk : Bool) (f : Nat → ProbeObs) (fuel : Nat) :
    EnterResult × List Ev :=
  if lockOk then
    match enterLoop maxR f fuel 0 with
    | (res, n) =>
      ((match res with
        | .admitted => .admitted
        | .maxAttempts => .maxAttemptsError),
       [Ev.lockLocal, Ev.lockDist] ++ List.replicate n Ev.probe ++
         [Ev.unlockDist, Ev.unlockLocal])
  else
    (.lockError, [Ev.lockLocal, Ev.distFail, Ev.unlockLocal])

/-! ## Per-token window state machine

The window record under the limiter's list key, as the serialized probe
sequence and store-side TTL expiry act on it. The spec (section 4.2)
requires probes to run only under the distributed mutex, so probe
sub-operations of distinct callers never interleave; store-side expiry can
fire at any moment, which the `expire` transition models. -/

/-- The window record: the Redis list under the window key together with
the TTL set for it. Field order: entries, ttlMs. -/
structure Window where
  entries : List String
  ttlMs : Int
deriving DecidableEq

/-- LLEN semantics: length of the list, 0 when the key is absent. -/
def listCount (w : Option Window) : Int :=
  (w.map fun x => (x.entries.length : Int)).getD 0

/-- Program counter of a prober inside the loop body, recording the values
it has observed so far. -/
inductive PC
  | start
  | afterCount (c : Int)
  | afterExists (c : Int) (ex : Bool)
  | done (admitted : Bool)
deriving DecidableEq

/-- Machine state: the store's window record plus the prober's position. -/
structure MState where
  window : Option Window
  pc : PC
deriving DecidableEq

/-- One transition of the window protocol, for admission bound `maxR`,
window TTL `winMs` and pushed entry `e` (the source pushes the token itself
as the entry). Store expiry (`expire`) may fire between any two
sub-operations. The probe sub-operations follow `Enter` lines 168-207:
`readCount` observes LLEN; `sleepFull` is the full/error sleep branch;
`readExists` observes EXISTS when below the limit; `atomicPush` is the
MULTI RPUSH PEXPIRE batch taken when the key was absent, creating the
record with TTL `winMs`; `rpushx` is RPUSHX when the key was seen, which
appends only if the key still exists, never touches the TTL, and admits
regardless because the source discards its returned length; the `err*`
transitions are the `continue` branches on store errors; `nextCall` starts
the next probe (next loop iteration or next `Enter`). -/
inductive Step (maxR winMs : Int) (e : String) : MState → MState → Prop
  | expire (w : Window) (p : PC) :
      Step maxR winMs e ⟨some w, p⟩ ⟨none, p⟩
  | readCount (w : Option Window) :
      Step maxR winMs e ⟨w, .start⟩ ⟨w, .afterCount (listCount w)⟩
  | errCount (w : Option Window) :
      Step maxR winMs e ⟨w, .start⟩ ⟨w, .start⟩
  | sleepFull (w : Option Window) (c : Int) (h : maxR ≤ c) :
      Step maxR winMs e ⟨w, .afterCount c⟩ ⟨w, .start⟩
  | readExists (w : Option Window) (c : Int) (h : c < maxR) :
      Step maxR winMs e ⟨w, .afterCount c⟩ ⟨w, .afterExists c w.isSome⟩
  | errExists (w : Option Window) (c : Int) (h : c < maxR) :
      Step maxR winMs e ⟨w, .afterCount c⟩ ⟨w, .start⟩
  | atomicPush (w : Option Window) (c : Int) :
      Step maxR winMs e ⟨w, .afterExists c false⟩
        ⟨some ⟨(w.map Window.entries).getD [] ++ [e], winMs⟩, .done true⟩
  | errAtomic (w : Option Window) (c : Int) :
      Step maxR winMs e ⟨w, .afterExists c false⟩ ⟨w, .start⟩
  | rpushx (w : Option Window) (c : Int) :
      Step maxR winMs e ⟨w, .afterExists c true⟩
        ⟨w.map fun win => ⟨win.entries ++ [e], win.ttlMs⟩, .done true⟩
  | errPushx (w : Option Window) (c : Int) :
      Step maxR winMs e ⟨w, .afterExists c true⟩ ⟨w, .start⟩
  | nextCall (w : Option Window) (a : Bool) :
      Step maxR winMs e ⟨w, .done a⟩ ⟨w, .start⟩

/-- States reachable from a fresh token (no window record, prober idle). -/
inductive Reach (maxR winMs : Int) (e : String) : MState → Prop
  | init : Reach maxR winMs e ⟨none, .start⟩
  | step {s t : MState} : Reach maxR winMs e s → Step maxR winMs e s t →
      Reach maxR winMs e t

/-- Inductive invariant relating the prober's observations to the store:
an observed count is still exact unless the key has expired since, an
observed-absent key is still absent (nothing recreates it mid-probe), and
past the count check the observed count is below the limit. -/
def countInv (maxR : Int) (s : MState) : Prop :=
  match s.pc with
  | .afterCount c => s.window = none ∨ listCount s.window = c
  | .afterExists c ex =>
    c < maxR ∧
      (match ex with
       | true => s.window = none ∨ listCount s.window = c
       | false => s.window = none)
  | _ => True

/-! ## Distributed lock release (spec section 4.1 / 6) -/

/-- Result of the store's compare-and-delete primitive. -/
inductive CadResult
  | deleted
  | mismatch
  | absent
deriving DecidableEq

/-- Modelled from the spec: the release path of the redsync distributed
mutex is not part of this repository's sources (only the import of
`redsync.Mutex` is visible), so the store primitive
`compareAndDelete(key, expectedValue) -> deleted|mismatch|absent` of spec
section 6 is taken at its word. The lock cell for one key holds the current
owner value or nothing; deletion happens only when the stored value equals
the expected one. Returns the resulting cell and the outcome. -/
def compareAndDelete (stored : Option String) (expected : String) :
    Option String × CadResult :=
  match stored with
  | none => (none, .absent)
  | some v => if v = expected then (none, .deleted) else (some v, .mismatch)

/-- Modelled from the spec: `release(key, ownerID)` of spec section 4.1
verifies the stored value still equals `ownerID` before deleting, i.e. it
is a compare-and-delete with the releasing owner's id as expected value. -/
def releaseLock (stored : Option String) (ownerID : String) :
    Option String × CadResult :=
  compareAndDelete stored ownerID

/-! ## Helper lemmas -/

/-- String concatenation acts as list concatenation on the character data. -/
lemma data_append (a b : String) : (a ++ b).data = a.data ++ b.data := by
  cases a
  cases b
  rfl

/-- Strings with equal character data are equal. -/
lemma string_eq_of_data (x y : String) (h : x.data = y.data) : x = y := by
  cases x
  cases y
  simp_all

/-- Right cancellation of list concatenation. -/
lemma append_cancel_r {α : Type} {l1 l2 s : List α} (h : l1 ++ s = l2 ++ s) :
    l1 = l2 := by
  have hlen : l1.length = l2.length := by
    have h2 := congrArg List.length h
    simp [List.length_append] at h2
    omega
  exact (List.append_inj h hlen).1

/-- Lists whose suffixes end in distinct elements are distinct. -/
lemma ne_of_last_ne {α : Type} {l1 l2 s t : List α} {a b : α} (hab : a ≠ b) :
    l1 ++ (s ++ [a]) ≠ l2 ++ (t ++ [b]) := by
  intro h
  rw [← List.append_assoc, ← List.append_assoc] at h
  have h1 := congrArg List.getLast? h
  rw [List.getLast?_concat, List.getLast?_concat] at h1
  exact hab (Option.some.inj h1)

/-- The invariant `countInv` is preserved by every transition. -/
lemma countInv_step {maxR winMs : Int} {e : String} {s t : MState}
    (h : countInv maxR s) (hs : Step maxR winMs e s t) : countInv maxR t := by
  cases hs with
  | expire w p =>
    cases p with
    | start => trivial
    | afterCount c => exact Or.inl rfl
    | afterExists c ex =>
      obtain ⟨hc, _⟩ := h
      refine ⟨hc, ?_⟩
      cases ex with
      | true => exact Or.inl rfl
      | false => rfl
    | done a => trivial
  | readCount w => exact Or.inr rfl
  | errCount w => trivial
  | sleepFull w c hle => trivial
  | readExists w c hlt =>
    cases w with
    | none => exact ⟨hlt, rfl⟩
    | some win =>
      refine ⟨hlt, ?_⟩
      cases h with
      | inl hnone => exact absurd hnone (by simp)
      | inr hcount => exact Or.inr hcount
  | errExists w c hlt => trivial
  | atomicPush w c => trivial
  | errAtomic w c => trivial
  | rpushx w c => trivial
  | errPushx w c => trivial
  | nextCall w a => trivial

/-- Every reachable state satisfies the observation invariant. -/
lemma reach_countInv {maxR winMs : Int} {e : String} {s : MState}
    (h : Reach maxR winMs e s) : countInv maxR s := by
  induction h with
  | init => trivial
  | step hr hs ih => exact countInv_step ih hs

/-- The probe loop executes at most as many iterations as it has budget. -/
lemma enterLoop_iters_le (maxR : Int) (f : Nat → ProbeObs) :
    ∀ (n i : Nat), (enterLoop maxR f n i).2 ≤ i + n := by
  intro n
  induction n with
  | zero => intro i; simp [enterLoop]
  | succ m ih =>
    intro i
    cases hit : iter maxR (f i) with
    | admitted => simp [enterLoop, hit]
    | sleepRetry =>
      simp only [enterLoop, hit]
      have := ih (i + 1)
      omega
    | contRetry =>
      simp only [enterLoop, hit]
      have := ih (i + 1)
      omega

/-- The probe loop returns the max-attempts result exactly when no
iteration within the budget admits; store-error iterations consume budget
like full ones. -/
lemma enterLoop_max_iff (maxR : Int) (f : Nat → ProbeObs) :
    ∀ (n i : Nat), (enterLoop maxR f n i).1 = LoopResult.maxAttempts ↔
      ∀ j, j < n → iter maxR (f (i + j)) ≠ IterOut.admitted := by
  intro n
  induction n with
  | zero => intro i; simp [enterLoop]
  | succ m ih =>
    intro i
    cases hit : iter maxR (f i) with
    | admitted =>
      simp only [enterLoop, hit]
      constructor
      · intro h; exact absurd h (by simp)
      · intro h
        exact absurd hit (by simpa using h 0 (by omega))
    | sleepRetry =>
      simp only [enterLoop, hit]
      rw [ih (i + 1)]
      constructor
      · intro h j hj
        match j with
        | 0 => rw [Nat.add_zero, hit]; simp
        | jj + 1 =>
          have := h jj (by omega)
          rwa [show i + 1 + jj = i + (jj + 1) by omega] at this
      · intro h jj hjj
        have := h (jj + 1) (by omega)
        rwa [show i + (jj + 1) = i + 1 + jj by omega] at this
    | contRetry =>
      simp only [enterLoop, hit]
      rw [ih (i + 1)]
      constructor
      · intro h j hj
        match j with
        | 0 => rw [Nat.add_zero, hit]; simp
        | jj + 1 =>
          have := h jj (by omega)
          rwa [show i + 1 + jj = i + (jj + 1) by omega] at this
      · intro h jj hjj
        have := h (jj + 1) (by omega)
        rwa [show i + (jj + 1) = i + 1 + jj by omega] at this

/-! ## Claim theorems -/

/-- C1: for a configuration with maxAdmissions = maxR ≥ 1, in every state
the window protocol can reach — probes serialized by the distributed mutex,
store-side expiry interleaving freely — the window list's length never
exceeds maxR; in particular at most maxR admissions append to any single
lifetime of the window record. -/
theorem c1_admission_bound {maxR winMs : Int} {e : String} {s : MState}
    (hmax : 1 ≤ maxR) (h : Reach maxR winMs e s) :
    listCount s.window ≤ maxR := by
  induction h with
  | init => simp [listCount]; omega
  | step hr hs ih =>
    have hinv := reach_countInv hr
    cases hs with
    | expire w p => simp [listCount]; omega
    | readCount w => exact ih
    | errCount w => exact ih
    | sleepFull w c hle => exact ih
    | readExists w c hlt => exact ih
    | errExists w c hlt => exact ih
    | atomicPush w c =>
      obtain ⟨hc, hnone⟩ := hinv
      subst hnone
      simp [listCount]
      omega
    | errAtomic w c => exact ih
    | rpushx w c =>
      obtain ⟨hc, hw⟩ := hinv
      cases w with
      | none => simp [listCount]; omega
      | some win =>
        cases hw with
        | inl hn => exact absurd hn (by simp)
        | inr hcount =>
          simp [listCount] at hcount ⊢
          omega
    | errPushx w c => exact ih
    | nextCall w a => exact ih

/-- Witness for C1: the bound holds at a concrete reachable state in which
one admission filled a window of capacity one. -/
theorem c1_admission_bound_wit : listCount (some ⟨["w1"], 500⟩) ≤ 1 := by
  have h0 : Reach 1 500 "w1" ⟨none, PC.start⟩ := Reach.init
  have h1 : Reach 1 500 "w1" ⟨none, PC.afterCount 0⟩ :=
    Reach.step h0 (Step.readCount none)
  have h2 : Reach 1 500 "w1" ⟨none, PC.afterExists 0 false⟩ :=
    Reach.step h1 (Step.readExists none 0 (by decide))
  have h3 : Reach 1 500 "w1" ⟨some ⟨["w1"], 500⟩, PC.done true⟩ :=
    Reach.step h2 (Step.atomicPush none 0)
  exact c1_admission_bound (by decide) h3

/-- C2: the code does not retry when RPUSHX reports the key gone. The
protocol reaches a state in which the prober observed the key to exist,
the window then expired, and the next transition — RPUSHX with its
returned length discarded (Enter lines 197-206) — ends in `done true`
(caller admitted, `Enter` returns nil) with no window record and no entry
appended, instead of retrying as full/contended. The last conjunct states
the same at the probe-iteration level: RPUSHX succeeding with returned
length 0 (key absent) still yields an admission. -/
theorem c2_expired_append_admits :
    Reach 10 1000 "t" ⟨none, PC.afterExists 1 true⟩ ∧
    Step 10 1000 "t" ⟨none, PC.afterExists 1 true⟩ ⟨none, PC.done true⟩ ∧
    iter 10 ⟨Except.ok 1, Except.ok true, Except.ok (), Except.ok 0⟩ =
      IterOut.admitted := by
  refine ⟨?_, ?_, rfl⟩
  · have h0 : Reach 10 1000 "t" ⟨none, PC.start⟩ := Reach.init
    have h1 : Reach 10 1000 "t" ⟨none, PC.afterCount 0⟩ :=
      Reach.step h0 (Step.readCount none)
    have h2 : Reach 10 1000 "t" ⟨none, PC.afterExists 0 false⟩ :=
      Reach.step h1 (Step.readExists none 0 (by decide))
    have h3 : Reach 10 1000 "t" ⟨some ⟨["t"], 1000⟩, PC.done true⟩ :=
      Reach.step h2 (Step.atomicPush none 0)
    have h4 : Reach 10 1000 "t" ⟨some ⟨["t"], 1000⟩, PC.start⟩ :=
      Reach.step h3 (Step.nextCall (some ⟨["t"], 1000⟩) true)
    have h5 : Reach 10 1000 "t" ⟨some ⟨["t"], 1000⟩, PC.afterCount 1⟩ :=
      Reach.step h4 (Step.readCount (some ⟨["t"], 1000⟩))
    have h6 : Reach 10 1000 "t" ⟨some ⟨["t"], 1000⟩, PC.afterExists 1 true⟩ :=
      Reach.step h5 (Step.readExists (some ⟨["t"], 1000⟩) 1 (by decide))
    exact Reach.step h6 (Step.expire ⟨["t"], 1000⟩ (PC.afterExists 1 true))
  · exact Step.rpushx none 1

/-- C3: evaluation of the config resolution of `Enter` on a limiter built
from an all-zero `RateLimitInfo`. The window interval, retry count and
jitter factor do fall back to 1000, 1000 and 0.5, but the admission bound
stays 0 (the declared `defaultMaxRequests = 10` is never applied) and the
delay resolves to 0 via the source's `delay = delay / 10.0`, not to
windowMillis/4 = 250. -/
theorem c3_defaults_eval :
    (NewLimiter ⟨"t", 0, 0⟩ true).map resolveConfig =
      some ⟨1000, 1000, 0, defaultFactor, 0⟩ := rfl

/-- C4 (amended): `Enter` returns the lock error exactly when the
distributed mutex acquisition fails, and the max-attempts error exactly
when the probe budget is spent without an admission — whether the budget
was consumed by full windows or by store errors; the lock error and the
max-attempts error are the only two distinguishable failure kinds, and a
run that acquired the lock never returns the lock error. -/
theorem c4_outcome_kinds (maxR : Int) (f : Nat → ProbeObs) (fuel : Nat) :
    (enter maxR false f fuel).1 = EnterResult.lockError ∧
    ((enter maxR true f fuel).1 = EnterResult.maxAttemptsError ↔
      ∀ j, j < fuel → iter maxR (f j) ≠ IterOut.admitted) ∧
    EnterResult.lockError ≠ EnterResult.maxAttemptsError ∧
    (enter maxR true f fuel).1 ≠ EnterResult.lockError := by
  refine ⟨rfl, ?_, by simp, ?_⟩
  · cases h2 : enterLoop maxR f fuel 0 with
    | mk res n =>
      have h3 := enterLoop_max_iff maxR f fuel 0
      rw [h2] at h3
      simp only [Nat.zero_add] at h3
      cases res with
      | admitted =>
        simp only [enter, if_true, h2]
        simp only [show (LoopResult.admitted = LoopResult.maxAttempts) ↔
          False by simp] at h3
        rw [false_iff] at h3
        push_neg at h3
        simp
        exact h3
      | maxAttempts =>
        simp only [enter, if_true, h2]
        simp only [show (LoopResult.maxAttempts = LoopResult.maxAttempts) ↔
          True by simp] at h3
        simp
        exact h3.mp trivial
  · cases h2 : enterLoop maxR f fuel 0 with
    | mk res n => cases res <;> simp [enter, h2]

/-- Witness for C4 (amended): with a failed lock acquisition, `Enter`
surfaces the lock error. -/
theorem c4_outcome_kinds_wit :
    (enter 10 false
      (fun _ => ⟨Except.ok 0, Except.ok false, Except.ok (), Except.ok 0⟩)
      1).1 = EnterResult.lockError :=
  (c4_outcome_kinds 10
    (fun _ => ⟨Except.ok 0, Except.ok false, Except.ok (), Except.ok 0⟩)
    1).1

/-- C4 counterexample: a run whose whole budget is consumed by store
errors (every `GetListCount` call fails) surfaces exactly the same
max-attempts error value as a run whose budget is consumed by a full
window — the caller cannot distinguish store-failure exhaustion from
capacity exhaustion, contrary to the claim. -/
theorem c4_store_error_conflated :
    (enter 10 true
      (fun _ => ⟨Except.error (), Except.ok true, Except.ok (), Except.ok 0⟩)
      2).1 = EnterResult.maxAttemptsError ∧
    (enter 10 true
      (fun _ => ⟨Except.ok 10, Except.ok true, Except.ok (), Except.ok 0⟩)
      2).1 = EnterResult.maxAttemptsError := ⟨rfl, rfl⟩

/-- C5: under the reachable-state invariant, an admission step taken after
the key was observed absent is the single transactional batch: it turns the
absent window (count 0) into a one-entry record with TTL = winMs; and an
admission step taken while the record exists appends one entry and leaves
the record's TTL untouched. -/
theorem c5_create_then_append {maxR winMs : Int} {e : String} {s t : MState}
    (hr : Reach maxR winMs e s) (hs : Step maxR winMs e s t) :
    (∀ c, s.pc = PC.afterExists c false → t.pc = PC.done true →
      s.window = none ∧ t.window = some ⟨[e], winMs⟩) ∧
    (∀ c win, s.pc = PC.afterExists c true → s.window = some win →
      t.pc = PC.done true →
      t.window = some ⟨win.entries ++ [e], win.ttlMs⟩) := by
  have hinv := reach_countInv hr
  cases hs with
  | expire w p =>
    constructor
    · intro c hpc hdone
      rw [hpc] at hdone
      simp at hdone
    · intro c win hpc hwin hdone
      rw [hpc] at hdone
      simp at hdone
  | readCount w =>
    exact ⟨fun c hpc _ => by simp at hpc, fun c win hpc _ _ => by simp at hpc⟩
  | errCount w =>
    exact ⟨fun c hpc _ => by simp at hpc, fun c win hpc _ _ => by simp at hpc⟩
  | sleepFull w c hle =>
    exact ⟨fun c hpc _ => by simp at hpc, fun c win hpc _ _ => by simp at hpc⟩
  | readExists w c hlt =>
    exact ⟨fun c hpc _ => by simp at hpc, fun c win hpc _ _ => by simp at hpc⟩
  | errExists w c hlt =>
    exact ⟨fun c hpc _ => by simp at hpc, fun c win hpc _ _ => by simp at hpc⟩
  | atomicPush w c =>
    constructor
    · intro c2 hpc hdone
      obtain ⟨hc, hnone⟩ := hinv
      subst hnone
      exact ⟨rfl, by simp⟩
    · intro c2 win hpc hwin hdone
      simp at hpc
  | errAtomic w c =>
    exact ⟨fun c2 hpc hdone => by simp at hdone,
           fun c2 win hpc _ hdone => by simp at hdone⟩
  | rpushx w c =>
    constructor
    · intro c2 hpc hdone
      simp at hpc
    · intro c2 win hpc hwin hdone
      subst hwin
      rfl
  | errPushx w c =>
    exact ⟨fun c2 hpc hdone => by simp at hdone,
           fun c2 win hpc _ hdone => by simp at hdone⟩
  | nextCall w a =>
    exact ⟨fun c hpc _ => by simp at hpc, fun c win hpc _ _ => by simp at hpc⟩

/-- Witness for C5: the creation step on a concrete fresh window yields
exactly one entry with the configured TTL. -/
theorem c5_create_then_append_wit :
    (MState.mk (some ⟨["w5"], 700⟩) (PC.done true)).window =
      some ⟨["w5"], 700⟩ := by
  have h0 : Reach 3 700 "w5" ⟨none, PC.start⟩ := Reach.init
  have h1 : Reach 3 700 "w5" ⟨none, PC.afterCount 0⟩ :=
    Reach.step h0 (Step.readCount none)
  have h2 : Reach 3 700 "w5" ⟨none, PC.afterExists 0 false⟩ :=
    Reach.step h1 (Step.readExists none 0 (by decide))
  exact ((c5_create_then_append h2 (Step.atomicPush none 0)).1 0 rfl rfl).2

/-- C6 (spec-modelled): releasing the distributed lock with an owner id
that no longer matches the stored value leaves the new owner's lock in
place and reports a mismatch — lock deletion is a no-op for non-owners. -/
theorem c6_release_nonowner_noop (stored : Option String)
    (owner current : String) (h1 : stored = some current)
    (h2 : current ≠ owner) :
    releaseLock stored owner = (some current, CadResult.mismatch) := by
  subst h1
  simp [releaseLock, compareAndDelete, h2]

/-- Witness for C6: a concrete non-owner release is a no-op. -/
theorem c6_release_nonowner_noop_wit :
    releaseLock (some "owner-b") "owner-a" =
      (some "owner-b", CadResult.mismatch) :=
  c6_release_nonowner_noop (some "owner-b") "owner-a" "owner-b" rfl
    (by decide)

/-- C7 counterexample: `NewLimiter` accepts a configuration with
non-positive MaxRequests and TimeInterval — construction succeeds instead
of failing fast with a configuration error. -/
theorem c7_nonpositive_accepted :
    (NewLimiter ⟨"t", 0, -5⟩ true).isSome = true := rfl

/-- C7 (amended): `NewLimiter` performs no configuration validation at
all; construction fails exactly when the Redis pool is absent and succeeds
for every `RateLimitInfo`, non-positive fields included. (No store
operation occurs at construction — the embedding of `NewLimiter` touches
no store state — but no configuration error exists either.) -/
theorem c7_no_validation (info : RateLimitInfo) :
    NewLimiter info false = none ∧ (NewLimiter info true).isSome = true :=
  ⟨rfl, rfl⟩

/-- C8: every execution of `Enter` emits the local-gate acquisition as its
very first event and the local-gate release as its very last, and whenever
the distributed mutex was acquired, its release is the last event before
the local release — so the local gate is taken before the distributed
mutex and released only after it, on success and on every error return. -/
theorem c8_gate_ordering (maxR : Int) (lockOk : Bool) (f : Nat → ProbeObs)
    (fuel : Nat) :
    ∃ body : List Ev,
      (enter maxR lockOk f fuel).2 =
        Ev.lockLocal :: (body ++ [Ev.unlockLocal]) ∧
      (Ev.lockDist ∈ body → body.getLast? = some Ev.unlockDist) ∧
      Ev.lockLocal ∉ body ∧ Ev.unlockLocal ∉ body := by
  cases lockOk with
  | false =>
    refine ⟨[Ev.distFail], rfl, ?_, by simp, by simp⟩
    intro hmem
    simp at hmem
  | true =>
    cases h2 : enterLoop maxR f fuel 0 with
    | mk res n =>
      refine ⟨Ev.lockDist :: (List.replicate n Ev.probe ++ [Ev.unlockDist]),
        ?_, ?_, ?_, ?_⟩
      · simp [enter, h2]
      · intro _
        have hsplit :
            Ev.lockDist :: (List.replicate n Ev.probe ++ [Ev.unlockDist]) =
              (Ev.lockDist :: List.replicate n Ev.probe) ++
                [Ev.unlockDist] := by simp
        rw [hsplit, List.getLast?_concat]
      · simp [List.mem_replicate]
      · simp [List.mem_replicate]

/-- Witness for C8: the ordering on a concrete failed-lock run. -/
theorem c8_gate_ordering_wit :
    ∃ body : List Ev,
      (enter 5 false
        (fun _ => ⟨Except.ok 0, Except.ok false, Except.ok (), Except.ok 0⟩)
        3).2 = Ev.lockLocal :: (body ++ [Ev.unlockLocal]) ∧
      (Ev.lockDist ∈ body → body.getLast? = some Ev.unlockDist) ∧
      Ev.lockLocal ∉ body ∧ Ev.unlockLocal ∉ body :=
  c8_gate_ordering 5 false
    (fun _ => ⟨Except.ok 0, Except.ok false, Except.ok (), Except.ok 0⟩) 3

/-- C9: both key-derivation maps are injective over caller tokens, and a
lock key never equals a window key, for any pair of tokens: the lock key
ends in the suffix "_redSync" while the window key ends in
"_rateLimiterToken". -/
theorem c9_key_derivation_injective (i1 i2 : RateLimitInfo)
    (r1 r2 : RateLimiter) (h1 : NewLimiter i1 true = some r1)
    (h2 : NewLimiter i2 true = some r2) :
    (redlockToken r1 = redlockToken r2 → i1.Token = i2.Token) ∧
    (rateLimiterToken r1 = rateLimiterToken r2 → i1.Token = i2.Token) ∧
    redlockToken r1 ≠ rateLimiterToken r2 := by
  simp only [NewLimiter, if_true, Option.some.injEq] at h1 h2
  subst h1
  subst h2
  refine ⟨?_, ?_, ?_⟩
  · intro heq
    have hd := congrArg String.data heq
    simp only [redlockToken, data_append] at hd
    rw [List.append_assoc, List.append_assoc] at hd
    exact string_eq_of_data _ _ (append_cancel_r hd)
  · intro heq
    have hd := congrArg String.data heq
    simp only [rateLimiterToken, data_append] at hd
    rw [List.append_assoc, List.append_assoc] at hd
    exact string_eq_of_data _ _ (append_cancel_r hd)
  · intro heq
    have hd := congrArg String.data heq
    simp only [redlockToken, rateLimiterToken, data_append] at hd
    rw [List.append_assoc, List.append_assoc] at hd
    rw [show ("_rateLimiterToken" : String).data ++
          ("_redSync" : String).data =
          ("_rateLimiterToken_redSyn" : String).data ++ ['c'] by decide,
        show ("_rateLimiterToken" : String).data ++
          ("_rateLimiterToken" : String).data =
          ("_rateLimiterToken_rateLimiterToke" : String).data ++ ['n']
          by decide] at hd
    exact ne_of_last_ne (show ('c' : Char) ≠ 'n' by decide) hd

/-- Witness for C9: lock key and window key differ for a concrete token. -/
theorem c9_key_derivation_injective_wit :
    redlockToken ⟨"a_rateLimiterToken", 1, 1000, 0, 250, 0⟩ ≠
      rateLimiterToken ⟨"a_rateLimiterToken", 1, 1000, 0, 250, 0⟩ :=
  (c9_key_derivation_injective ⟨"a", 1, 1000⟩ ⟨"a", 1, 1000⟩
    ⟨"a_rateLimiterToken", 1, 1000, 0, 250, 0⟩
    ⟨"a_rateLimiterToken", 1, 1000, 0, 250, 0⟩ rfl rfl).2.2

/-- C10: for every limiter and oracle of store responses, the probe loop
executes at most the effective retry budget of iterations — the configured
`retries`, or 1000 when unset — with store-error iterations consuming the
budget like any other, and then `Enter` has returned (the loop result is
admission or the max-attempts error by construction of `enterLoop`). -/
theorem c10_loop_bounded (r : RateLimiter) (f : Nat → ProbeObs) :
    (enterLoop r.maxRequestsForTimeInterval f
      (resolveConfig r).retries.toNat 0).2 ≤
        (resolveConfig r).retries.toNat ∧
    (r.retries = 0 → (resolveConfig r).retries = 1000) := by
  constructor
  · have h := enterLoop_iters_le r.maxRequestsForTimeInterval f
      (resolveConfig r).retries.toNat 0
    simpa using h
  · intro h
    simp [resolveConfig, h, defaultRetries]

/-- Witness for C10: a limiter with unset retries gets the 1000 default. -/
theorem c10_loop_bounded_wit :
    (resolveConfig ⟨"t", 0, 0, 0, 0, 0⟩).retries = 1000 :=
  (c10_loop_bounded ⟨"t", 0, 0, 0, 0, 0⟩
    (fun _ => ⟨Except.ok 0, Except.ok false, Except.ok (), Except.ok 0⟩)).2
    rfl

end Funnel
